import Mathlib

/-!
Shallow embedding of `src/rf-viewer.py` (KitwareMedical/RFViewer), an
ultrasound RF-data viewer.  Python floats are modelled as rationals; numpy
arrays as index functions together with explicit dimensions; Qt signals as
explicit subscriber lists delivered synchronously in registration order.
-/

namespace RFViewer

/-- Argument accepted by the ROILogic setters (`set_zoom_roi_pos`,
`set_plot_roi_pos`): either a `pg.ROI` widget, from which `.pos()` is read,
or a raw indexable position (tuple/list), from which `pos[0]` and `pos[1]`
are read.  A raw sequence shorter than 2 makes Python raise `IndexError`,
modelled by `extract` returning `none`. -/
inductive PosArg where
  | roi (p : ℚ × ℚ)
  | raw (p : List ℚ)
deriving DecidableEq

/-- The position the setter works with: `roi_or_pos.pos()` for a widget,
`(pos[0], pos[1])` for a raw sequence. -/
def PosArg.extract : PosArg → Option (ℚ × ℚ)
  | .roi p => some p
  | .raw (a :: b :: _) => some (a, b)
  | .raw _ => none

/-- State of one `ROILogic` instance: the two stored named positions.
`_zoom_roi_pos` and `_plot_roi_pos` start as the class-level defaults and
are always 2-tuples after any setter call. -/
structure ROILogicState where
  zoomPos : ℚ × ℚ
  plotPos : ℚ × ℚ
deriving DecidableEq

/-- Class-level defaults: `_zoom_roi_pos = (80., 60.)`,
`_plot_roi_pos = (320., 300.)` (rf-viewer.py lines 137-138). -/
def initROILogic : ROILogicState := ⟨(80, 60), (320, 300)⟩

/-- `ROILogic.set_zoom_roi_pos` (lines 146-153): extract the position, and
when `(pos[0], pos[1]) != self._zoom_roi_pos` store the 2-tuple and emit
`zoom_roi_pos_changed` with the stored tuple; otherwise do nothing.  The
returned list is the sequence of payloads emitted by the call. -/
def set_zoom_roi_pos (s : ROILogicState) (arg : PosArg) :
    Option (ROILogicState × List (ℚ × ℚ)) :=
  match arg.extract with
  | none => none
  | some p =>
    if (p.1, p.2) ≠ s.zoomPos then
      some ({ s with zoomPos := (p.1, p.2) }, [(p.1, p.2)])
    else
      some (s, [])

/-- `ROILogic.set_plot_roi_pos` (lines 164-171), same shape as the zoom
setter but for `_plot_roi_pos` and `plot_roi_pos_changed`. -/
def set_plot_roi_pos (s : ROILogicState) (arg : PosArg) :
    Option (ROILogicState × List (ℚ × ℚ)) :=
  match arg.extract with
  | none => none
  | some p =>
    if (p.1, p.2) ≠ s.plotPos then
      some ({ s with plotPos := (p.1, p.2) }, [(p.1, p.2)])
    else
      some (s, [])

/-- Synchronous delivery of a list of emitted payloads to a list of
subscribers, in registration order: each subscriber receives each payload
exactly once, and deliveries for one emit are contiguous. -/
def deliveries {S : Type} (subs : List S) (emitted : List (ℚ × ℚ)) :
    List (S × (ℚ × ℚ)) :=
  emitted.flatMap fun p => subs.map fun s => (s, p)

/-- Second call of a setter: run the setter with `p1`, then run it again on
the resulting state with `p2`, returning the second call's result. -/
def afterTwo
    (f : ROILogicState → PosArg → Option (ROILogicState × List (ℚ × ℚ)))
    (s : ROILogicState) (p1 p2 : ℚ × ℚ) :
    Option (ROILogicState × List (ℚ × ℚ)) :=
  (f s (.roi p1)).bind fun r => f r.1 (.roi p2)

/-- Modelled from the spec: the integer index range of a window of length
`len` starting at coordinate `start`, clipped to the array bound `[0, dim)`
(`rf-viewer.py` delegates region extraction to pyqtgraph's
`ROI.getArrayRegion`, whose code is outside this repository; the spec
prescribes deterministic clamping of the window bounds to `[0, array_dim)`). -/
def clampedRange (start : ℤ) (len : ℕ) (dim : ℕ) : List ℕ :=
  (List.range dim).filter fun i => decide (start ≤ (i : ℤ) ∧ (i : ℤ) < start + len)

/-- Row indices of the window of height `win.1` centered at row `pos.1`,
clipped to `[0, H)`. -/
def windowRowIdx (H : ℕ) (pos : ℤ × ℤ) (win : ℕ × ℕ) : List ℕ :=
  clampedRange (pos.1 - ((win.1 / 2 : ℕ) : ℤ)) win.1 H

/-- Column indices of the window of width `win.2` centered at column
`pos.2`, clipped to `[0, W)`. -/
def windowColIdx (W : ℕ) (pos : ℤ × ℤ) (win : ℕ × ℕ) : List ℕ :=
  clampedRange (pos.2 - ((win.2 / 2 : ℕ) : ℤ)) win.2 W

/-- Modelled from the spec: `extract(array, position, window)` — the
rectangular block of array values covered by the window centered at
`position`, clipped to the array bounds (stands for
`ROI.getArrayRegion(image_array, image_item)`, external to this repository). -/
def extractRegion (arr : ℕ → ℕ → ℚ) (H W : ℕ) (pos : ℤ × ℤ) (win : ℕ × ℕ) :
    List (List ℚ) :=
  (windowRowIdx H pos win).map fun i => (windowColIdx W pos win).map fun j => arr i j

/-- Row/bound predicate of the claim: index `i` lies under the window
`[start, start + len)`. -/
def inWindow (start : ℤ) (len : ℕ) (i : ℕ) : Prop :=
  start ≤ (i : ℤ) ∧ (i : ℤ) < start + len

/-- The `yy = data[data.shape[0]/2, :]` step of
`PlotsDock.update_plot_content` (line 59): the row of the extracted block at
index `shape[0]/2`; `/` is Python 2 integer floor division, and numpy raises
`IndexError` when the index is out of range (only possible here for an empty
block), modelled by `none`. -/
def plot_yy (data : List (List ℚ)) : Option (List ℚ) :=
  data[data.length / 2]?

/-- The `xx = 1./40. * np.arange(len(yy))` step (line 61): the time axis at
the assumed 40 MHz sampling. -/
def plot_xx (yy : List ℚ) : List ℚ :=
  (List.range yy.length).map fun n => (1 / 40 : ℚ) * (n : ℚ)

/-- Cross-section of `update_plot_content`: extract the block under the plot
ROI at `pos`, then take its middle row. -/
def crossSection (arr : ℕ → ℕ → ℚ) (H W : ℕ) (pos : ℤ × ℤ) (win : ℕ × ℕ) :
    Option (List ℚ) :=
  plot_yy (extractRegion arr H W pos win)

/-- One `(plot_curve, plot_roi, image_array, image_item)` entry of
`PlotsDock._images_to_plot` (lines 43-46): the registered array with its
dimensions, the plot ROI's window geometry and current position, and the
data last pushed to the plot curve (`setData(xx, yy)`), `none` before the
first plot. -/
structure PlotEntry where
  arrH : ℕ
  arrW : ℕ
  arr : ℕ → ℕ → ℚ
  win : ℕ × ℕ
  roiPos : ℤ × ℤ
  curve : Option (List ℚ × List ℚ)

/-- Body of the `for` loop of `update_plot_content` (lines 55-62) for one
registered entry: `plot_roi.setPos(pos, update=False)`, extract the region
at the new position, take the middle row, and push `(xx, yy)` to the curve. -/
def updateEntry (pos : ℤ × ℤ) (e : PlotEntry) : PlotEntry :=
  { e with
    roiPos := pos
    curve := (crossSection e.arr e.arrH e.arrW pos e.win).map fun yy =>
      (plot_xx yy, yy) }

/-- `PlotsDock.update_plot_content` over the registration list: every entry
ever registered is repositioned and re-plotted at `pos`. -/
def update_plot_content (entries : List PlotEntry) (pos : ℤ × ℤ) :
    List PlotEntry :=
  entries.map (updateEntry pos)

/-- Process-wide state backing `PlotsDock._images_to_plot`.  In the source,
`_images_to_plot = []` is a class-level attribute (line 19) and
`add_image_to_plot` mutates it in place with `append` (lines 43-46) without
ever rebinding it on the instance, so every `PlotsDock` instance in the
process aliases this one list.  Methods therefore take the calling
instance's id but the list operations never consult it. -/
structure PlotsProcess where
  imagesToPlot : List PlotEntry

/-- The registration list as seen through a given `PlotsDock` instance:
attribute lookup on the instance falls through to the class attribute. -/
def images_seen (proc : PlotsProcess) (instId : ℕ) : List PlotEntry :=
  proc.imagesToPlot

/-- `PlotsDock.add_image_to_plot` (lines 31-47) called on instance `instId`:
append the new `(curve, roi, array, item)` entry to the shared class-level
list, then run `update_plot_content(plot_roi)` with the new ROI's position. -/
def add_image_to_plot (proc : PlotsProcess) (instId : ℕ)
    (arrH arrW : ℕ) (arr : ℕ → ℕ → ℚ) (win : ℕ × ℕ) (roiPos : ℤ × ℤ) :
    PlotsProcess :=
  let entry : PlotEntry :=
    { arrH := arrH, arrW := arrW, arr := arr, win := win,
      roiPos := roiPos, curve := none }
  { proc with
    imagesToPlot := update_plot_content (proc.imagesToPlot ++ [entry]) roiPos }

/-- `PlotsDock.update_plot_content` called on instance `instId` with a raw
position: iterates the shared class-level list. -/
def update_plot_content_on (proc : PlotsProcess) (instId : ℕ) (pos : ℤ × ℤ) :
    PlotsProcess :=
  { proc with imagesToPlot := update_plot_content proc.imagesToPlot pos }

/-- Names of the two notification channels of `ROILogic`:
`zoom_roi_pos_changed` and `plot_roi_pos_changed`. -/
inductive SigName where
  | zoom
  | plot
deriving DecidableEq

/-- A notification event: which signal fired, the id of the subscriber it
was delivered to, and the payload it carried. -/
abbrev Event : Type := SigName × ℕ × (ℚ × ℚ)

/-- Modelled from the spec: conversion of a continuous pyqtgraph ROI
position to the integer array index of its containing pixel (the coordinate
mapping inside `getArrayRegion` is external to this repository). -/
def posToIndex (p : ℚ × ℚ) : ℤ × ℤ :=
  (⌊p.1⌋, ⌊p.2⌋)

/-- One `ImageDock` subscribed to `zoom_roi_pos_changed`: its image array
with dimensions, the zoom ROI geometry, and the region currently shown by
`roi_image_item`. -/
structure DockState where
  id : ℕ
  arrH : ℕ
  arrW : ℕ
  arr : ℕ → ℕ → ℚ
  win : ℕ × ℕ
  roiRegion : List (List ℚ)

/-- `ImageDock.update_zoom_roi_content` (lines 120-132) at a raw position:
move the zoom ROI without re-emitting (`setPos(pos, update=False)`), extract
the region under it, and push it to `roi_image_item`. -/
def update_zoom_roi_content (pos : ℤ × ℤ) (d : DockState) : DockState :=
  { d with roiRegion := extractRegion d.arr d.arrH d.arrW pos d.win }

/-- The wiring of one viewer session relevant to zoom-position changes:
the shared `ROILogic` state, the docks connected to `zoom_roi_pos_changed`
in registration (connection) order, and the consumers of the unrelated
plot channel. -/
structure SyncWorld where
  roi : ROILogicState
  zoomSubs : List DockState
  plotEntries : List PlotEntry

/-- Synchronous dispatch of the payloads emitted by one
`zoom_roi_pos_changed.emit` sequence: each payload is delivered to every
subscribed dock in registration order, each dock re-extracting its region,
and the delivery trace is accumulated before control returns. -/
def emitZoom (w : SyncWorld) (ps : List (ℚ × ℚ)) : SyncWorld × List Event :=
  ps.foldl
    (fun acc p =>
      ({ acc.1 with
          zoomSubs := acc.1.zoomSubs.map (update_zoom_roi_content (posToIndex p)) },
       acc.2 ++ acc.1.zoomSubs.map fun d => (SigName.zoom, d.id, p)))
    (w, [])

/-- `ROILogic.set_zoom_roi_pos` as seen by the whole session: the state
update plus the synchronous fan-out to every dock connected to
`zoom_roi_pos_changed`, completed before the call returns. -/
def set_zoom_roi_pos_world (w : SyncWorld) (arg : PosArg) :
    Option (SyncWorld × List Event) :=
  (set_zoom_roi_pos w.roi arg).map fun r =>
    emitZoom { w with roi := r.1 } r.2

/-- A SimpleITK 3-D image: per-axis size `(sx, sy, sz)` and spacing in
SimpleITK axis order, and the pixel data in numpy index order
(`data z y x`, the layout returned by `sitk.GetArrayFromImage`, of shape
`(sz, sy, sx)`). -/
structure SitkImage3 where
  sx : ℕ
  sy : ℕ
  sz : ℕ
  spacing : ℚ × ℚ × ℚ
  data : ℕ → ℕ → ℕ → ℚ

/-- `sitk.GetArrayFromImage`: the pixel buffer in numpy `(z, y, x)` order. -/
def GetArrayFromImage (img : SitkImage3) : ℕ → ℕ → ℕ → ℚ :=
  img.data

/-- `sitk.GetImageFromArray` on an array of shape `(nz, ny, nx)`: an image
of size `(nx, ny, nz)` with default unit spacing. -/
def GetImageFromArray (nz ny nx : ℕ) (arr : ℕ → ℕ → ℕ → ℚ) : SitkImage3 :=
  { sx := nx, sy := ny, sz := nz, spacing := (1, 1, 1), data := arr }

/-- `dst.CopyInformation(src)`: copy the geometry (spacing) of `src` onto
`dst`; SimpleITK raises unless the two sizes agree, modelled by `none`. -/
def CopyInformation (dst src : SitkImage3) : Option SitkImage3 :=
  if (dst.sx, dst.sy, dst.sz) = (src.sx, src.sy, src.sz) then
    some { dst with spacing := src.spacing }
  else
    none

/-- `np.abs(scipy.signal.hilbert(array, axis=1))` on a 3-D array: the 1-D
analytic-signal-magnitude map `T` (envelope of a real sequence) applied
independently along axis 1 of the `(z, y, x)`-ordered array.  `T` abstracts
the scipy kernel, which is external to this repository; only its
slice-by-slice application along the named axis is the repository's code. -/
def envelope_axis1 (T : (ℕ → ℚ) → ℕ → ℚ) (arr : ℕ → ℕ → ℕ → ℚ) :
    ℕ → ℕ → ℕ → ℚ :=
  fun z y x => T (fun t => arr z t x) y

/-- Lines 274-279 of `RFViewerWindow.initializeUI`: take the RF image's
array, form the envelope along axis 1, rebuild an image from the envelope
array, and copy the source image's geometry onto it. -/
def derive_b_mode (T : (ℕ → ℚ) → ℕ → ℚ) (rf : SitkImage3) :
    Option SitkImage3 :=
  CopyInformation
    (GetImageFromArray rf.sz rf.sy rf.sx (envelope_axis1 T (GetArrayFromImage rf)))
    rf

/-- The `squeeze()` step of `ImageLogic.set_image` (line 213) for an RF
volume whose numpy array has shape `(1, sy, sx)` with `sx, sy ≥ 2` (the
image's trailing singleton z axis is numpy's leading axis): drop the
singleton axis. -/
def npSqueeze0 (d : ℕ → ℕ → ℕ → ℚ) : ℕ → ℕ → ℚ :=
  fun y x => d 0 y x

/-- The `transpose()` step of `ImageLogic.set_image` (line 214) on the
squeezed 2-D array: swap the two axes. -/
def npTranspose (d : ℕ → ℕ → ℚ) : ℕ → ℕ → ℚ :=
  fun i j => d j i

/-- `ImageLogic.set_image` (lines 210-217): the array exposed as
`image_array`, i.e. `GetArrayFromImage(image).squeeze().transpose()`. -/
def image_array (img : SitkImage3) : ℕ → ℕ → ℚ :=
  npTranspose (npSqueeze0 (GetArrayFromImage img))

/-- Stated from the spec's words, for comparison with `image_array`: drop
the trailing singleton axis of the image (numpy's leading axis of the
`(1, sy, sx)` buffer), then swap the in-memory axis order of the resulting
2-D array, so that element `(i, j)` of the exposed array is buffer element
`(0, j, i)`. -/
def specExposedArray (img : SitkImage3) : ℕ → ℕ → ℚ :=
  fun i j => img.data 0 j i

/-- A concrete 1-D envelope operator used to instantiate theorems. -/
def demoEnvOp : (ℕ → ℚ) → ℕ → ℚ :=
  fun f n => f n + f 0

/-- A concrete RF volume of SimpleITK size `(2, 2, 1)` used to instantiate
theorems. -/
def demoRF : SitkImage3 :=
  SitkImage3.mk 2 2 1 (1, 1, 1) fun z y x => (z : ℚ) + 2 * y + 3 * x

/-- A concrete dock used to instantiate theorems. -/
def demoDockA : DockState :=
  DockState.mk 0 4 4 (fun i j => (i : ℚ) + j) (2, 2) []

/-- A second concrete dock used to instantiate theorems. -/
def demoDockB : DockState :=
  DockState.mk 1 3 5 (fun i j => (i : ℚ) * j) (1, 3) []

/-- A concrete session with two docks subscribed to the zoom channel. -/
def demoWorld : SyncWorld :=
  SyncWorld.mk initROILogic [demoDockA, demoDockB] []

/-- The position stored under a given name: `_zoom_roi_pos` or
`_plot_roi_pos`. -/
def stored_pos : SigName → ROILogicState → ℚ × ℚ
  | .zoom, s => s.zoomPos
  | .plot, s => s.plotPos

/-- The setter registered for a given name: `set_zoom_roi_pos` or
`set_plot_roi_pos`. -/
def set_roi_pos : SigName → ROILogicState → PosArg →
    Option (ROILogicState × List (ℚ × ℚ))
  | .zoom => set_zoom_roi_pos
  | .plot => set_plot_roi_pos

/-- A SimpleITK 2-D image (a loaded image with no singleton axis to drop):
per-axis size `(sx, sy)` and spacing, and the pixel data in numpy index
order (`data y x`, shape `(sy, sx)`). -/
structure SitkImage2 where
  sx : ℕ
  sy : ℕ
  spacing : ℚ × ℚ
  data : ℕ → ℕ → ℚ

/-- `sitk.GetArrayFromImage` on a 2-D image: the buffer in numpy `(y, x)`
order. -/
def GetArrayFromImage2 (img : SitkImage2) : ℕ → ℕ → ℚ :=
  img.data

/-- `sitk.GetImageFromArray` on an array of shape `(ny, nx)`. -/
def GetImageFromArray2 (ny nx : ℕ) (arr : ℕ → ℕ → ℚ) : SitkImage2 :=
  { sx := nx, sy := ny, spacing := (1, 1), data := arr }

/-- `dst.CopyInformation(src)` for 2-D images: copy the spacing, requiring
equal sizes. -/
def CopyInformation2 (dst src : SitkImage2) : Option SitkImage2 :=
  if (dst.sx, dst.sy) = (src.sx, src.sy) then
    some { dst with spacing := src.spacing }
  else
    none

/-- `np.abs(scipy.signal.hilbert(array, axis=1))` on a 2-D `(y, x)` buffer:
the 1-D envelope map applied along axis 1, which is the x axis. -/
def envelope2_axis1 (T : (ℕ → ℚ) → ℕ → ℚ) (arr : ℕ → ℕ → ℚ) : ℕ → ℕ → ℚ :=
  fun y x => T (fun t => arr y t) x

/-- Lines 274-279 of `RFViewerWindow.initializeUI` for a genuinely 2-D
loaded image. -/
def derive_b_mode2 (T : (ℕ → ℚ) → ℕ → ℚ) (rf : SitkImage2) :
    Option SitkImage2 :=
  CopyInformation2
    (GetImageFromArray2 rf.sy rf.sx (envelope2_axis1 T (GetArrayFromImage2 rf)))
    rf

/-- `ImageLogic.set_image` for a genuinely 2-D image with `sx, sy ≥ 2`:
`squeeze()` finds no singleton axis and is the identity, `transpose()`
swaps the two axes. -/
def image_array2 (img : SitkImage2) : ℕ → ℕ → ℚ :=
  fun i j => img.data j i

/-- A concrete genuinely 2-D loaded image (size 2×2, no singleton axis),
with an asymmetric buffer. -/
def cxRF : SitkImage2 :=
  SitkImage2.mk 2 2 (1, 1) fun y x => 2 * (y : ℚ) + x

lemma set_zoom_roi_pos_roi_eq (s : ROILogicState) (q : ℚ × ℚ) :
    set_zoom_roi_pos s (.roi q) =
      if q ≠ s.zoomPos then some ({ s with zoomPos := q }, [q])
      else some (s, []) := rfl

lemma set_plot_roi_pos_roi_eq (s : ROILogicState) (q : ℚ × ℚ) :
    set_plot_roi_pos s (.roi q) =
      if q ≠ s.plotPos then some ({ s with plotPos := q }, [q])
      else some (s, []) := rfl

/-- C2: for every position name and every argument whose position is
pairwise-equal to the position currently stored under that name, calling
that name's setter leaves the state unchanged (the other name's stored
position may differ arbitrarily) and emits zero notifications. -/
theorem claim_C2 (name : SigName) (s : ROILogicState) (arg : PosArg)
    (p : ℚ × ℚ) (h : arg.extract = some p)
    (h1 : p.1 = (stored_pos name s).1) (h2 : p.2 = (stored_pos name s).2) :
    set_roi_pos name s arg = some (s, []) := by
  have hpe : (p.1, p.2) = stored_pos name s := by rw [h1, h2]
  cases name with
  | zoom =>
      have hz : (p.1, p.2) = s.zoomPos := hpe
      simp [set_roi_pos, set_zoom_roi_pos, h, hz]
  | plot =>
      have hp : (p.1, p.2) = s.plotPos := hpe
      simp [set_roi_pos, set_plot_roi_pos, h, hp]

theorem claim_C2_witness :
    PosArg.extract (.raw [80, 60, 9]) = some (80, 60) ∧
    ((80 : ℚ) = (stored_pos SigName.zoom initROILogic).1 ∧
      (60 : ℚ) = (stored_pos SigName.zoom initROILogic).2) ∧
    set_roi_pos SigName.zoom initROILogic (.raw [80, 60, 9]) =
      some (initROILogic, []) :=
  ⟨rfl, ⟨rfl, rfl⟩,
    claim_C2 SigName.zoom initROILogic (.raw [80, 60, 9]) (80, 60)
      rfl rfl rfl⟩

/-- C3: for every position name and distinct positions `p1 ≠ p2`, calling
the setter with `p1` and then `p2` makes the second call store `p2` and emit
exactly one notification, whose synchronous delivery reaches each subscriber
of that name exactly once with payload `p2`. -/
theorem claim_C3 {S : Type} (subs : List S) (s : ROILogicState)
    (p1 p2 : ℚ × ℚ) (h : p1 ≠ p2) :
    afterTwo set_plot_roi_pos s p1 p2 = some ({ s with plotPos := p2 }, [p2]) ∧
    afterTwo set_zoom_roi_pos s p1 p2 = some ({ s with zoomPos := p2 }, [p2]) ∧
    deliveries subs [p2] = subs.map fun x => (x, p2) := by
  refine ⟨?_, ?_, ?_⟩
  · by_cases hc : p1 = s.plotPos
    · have hc2 : p2 ≠ s.plotPos := fun he => h (he ▸ hc)
      have hs : ({ s with plotPos := p1 } : ROILogicState) = s := by
        rw [hc]
      simp [afterTwo, set_plot_roi_pos_roi_eq, hc, hc2]
    · have hc2 : p2 ≠ ({ s with plotPos := p1 } : ROILogicState).plotPos :=
        fun he => h (he ▸ rfl)
      simp [afterTwo, set_plot_roi_pos_roi_eq, hc, Ne.symm h]
  · by_cases hc : p1 = s.zoomPos
    · have hc2 : p2 ≠ s.zoomPos := fun he => h (he ▸ hc)
      simp [afterTwo, set_zoom_roi_pos_roi_eq, hc, hc2]
    · simp [afterTwo, set_zoom_roi_pos_roi_eq, hc, Ne.symm h]
  · simp [deliveries]

theorem claim_C3_witness :
    ((1, 2) : ℚ × ℚ) ≠ ((3, 4) : ℚ × ℚ) ∧
    (afterTwo set_plot_roi_pos initROILogic (1, 2) (3, 4) =
        some ({ initROILogic with plotPos := (3, 4) }, [(3, 4)]) ∧
      afterTwo set_zoom_roi_pos initROILogic (1, 2) (3, 4) =
        some ({ initROILogic with zoomPos := (3, 4) }, [(3, 4)]) ∧
      deliveries [10, 20, 30] [(3, 4)] =
        [10, 20, 30].map fun x => (x, ((3 : ℚ), (4 : ℚ)))) :=
  ⟨by decide, claim_C3 [10, 20, 30] initROILogic (1, 2) (3, 4) (by decide)⟩

/-- C10: every `ROILogic` starts with zoom position `(80, 60)` and plot
position `(320, 300)`; after any setter call the stored position is the
2-tuple `(pos[0], pos[1])` of the argument's coordinates, the other stored
position is untouched, and the notification fires exactly when the pairwise
coordinate comparison finds a difference, regardless of the argument's
type. -/
theorem claim_C10 (s : ROILogicState) (arg : PosArg) (p : ℚ × ℚ)
    (h : arg.extract = some p) :
    initROILogic = ROILogicState.mk (80, 60) (320, 300) ∧
    (set_zoom_roi_pos s arg).map (fun r => (r.1.zoomPos, r.1.plotPos)) =
      some ((p.1, p.2), s.plotPos) ∧
    (set_plot_roi_pos s arg).map (fun r => (r.1.plotPos, r.1.zoomPos)) =
      some ((p.1, p.2), s.zoomPos) ∧
    (set_zoom_roi_pos s arg).map (fun r => r.2) =
      some (if p.1 = s.zoomPos.1 ∧ p.2 = s.zoomPos.2 then [] else [(p.1, p.2)]) ∧
    (set_plot_roi_pos s arg).map (fun r => r.2) =
      some (if p.1 = s.plotPos.1 ∧ p.2 = s.plotPos.2 then [] else [(p.1, p.2)]) := by
  have hz : ((p.1, p.2) = s.zoomPos) ↔ (p.1 = s.zoomPos.1 ∧ p.2 = s.zoomPos.2) :=
    Prod.ext_iff
  have hp : ((p.1, p.2) = s.plotPos) ↔ (p.1 = s.plotPos.1 ∧ p.2 = s.plotPos.2) :=
    Prod.ext_iff
  have e1 : set_zoom_roi_pos s arg =
      if (p.1, p.2) ≠ s.zoomPos then
        some ({ s with zoomPos := (p.1, p.2) }, [(p.1, p.2)])
      else some (s, []) := by
    simp [set_zoom_roi_pos, h]
  have e2 : set_plot_roi_pos s arg =
      if (p.1, p.2) ≠ s.plotPos then
        some ({ s with plotPos := (p.1, p.2) }, [(p.1, p.2)])
      else some (s, []) := by
    simp [set_plot_roi_pos, h]
  refine ⟨rfl, ?_, ?_, ?_, ?_⟩
  · rw [e1]
    by_cases hc : (p.1, p.2) = s.zoomPos <;> simp [hc]
  · rw [e2]
    by_cases hd : (p.1, p.2) = s.plotPos <;> simp [hd]
  · rw [e1]
    by_cases hc : (p.1, p.2) = s.zoomPos
    · have hc2 := hz.mp hc
      simp [hc, hc2]
    · have hc2 : ¬(p.1 = s.zoomPos.1 ∧ p.2 = s.zoomPos.2) := fun hh => hc (hz.mpr hh)
      simp [hc, hc2]
  · rw [e2]
    by_cases hd : (p.1, p.2) = s.plotPos
    · have hd2 := hp.mp hd
      simp [hd, hd2]
    · have hd2 : ¬(p.1 = s.plotPos.1 ∧ p.2 = s.plotPos.2) := fun hh => hd (hp.mpr hh)
      simp [hd, hd2]

/-- C1: for every cross-section extraction, the 1-D sequence pushed to the
plot curve is the middle row of the block extracted at the current position,
at row index `height / 2` with integer truncation (Python 2 integer
division in `data[data.shape[0]/2, :]`). -/
theorem claim_C1 (arr : ℕ → ℕ → ℚ) (H W : ℕ) (pos : ℤ × ℤ) (win : ℕ × ℕ)
    (h : extractRegion arr H W pos win ≠ []) :
    crossSection arr H W pos win =
      ((extractRegion arr H W pos win).drop
        ((extractRegion arr H W pos win).length / 2)).head? ∧
    (((extractRegion arr H W pos win).drop
        ((extractRegion arr H W pos win).length / 2)).head?).isSome = true := by
  have hidx : (extractRegion arr H W pos win).length / 2 <
      (extractRegion arr H W pos win).length :=
    Nat.div_lt_self (List.length_pos.mpr h) one_lt_two
  have hdh : ((extractRegion arr H W pos win).drop
      ((extractRegion arr H W pos win).length / 2)).head? =
      (extractRegion arr H W pos win)[(extractRegion arr H W pos win).length / 2]? := by
    rw [List.head?_eq_getElem?, List.getElem?_drop, Nat.add_zero]
  refine ⟨?_, ?_⟩
  · rw [crossSection, plot_yy, hdh]
  · rw [hdh]
    simp [List.getElem?_eq_getElem hidx]

theorem claim_C1_witness :
    extractRegion (fun i j => (4 * i + j : ℚ)) 4 40 (2, 20) (4, 1) ≠ [] ∧
    (crossSection (fun i j => (4 * i + j : ℚ)) 4 40 (2, 20) (4, 1) =
      ((extractRegion (fun i j => (4 * i + j : ℚ)) 4 40 (2, 20) (4, 1)).drop
        ((extractRegion (fun i j => (4 * i + j : ℚ)) 4 40 (2, 20) (4, 1)).length / 2)).head? ∧
    (((extractRegion (fun i j => (4 * i + j : ℚ)) 4 40 (2, 20) (4, 1)).drop
        ((extractRegion (fun i j => (4 * i + j : ℚ)) 4 40 (2, 20) (4, 1)).length / 2)).head?).isSome
      = true) :=
  ⟨by decide,
    claim_C1 (fun i j => (4 * i + j : ℚ)) 4 40 (2, 20) (4, 1) (by decide)⟩

/-- C6: extraction is total for every array, position, and window: the
clipped index lists contain exactly the indices lying both under the window
centered at the position and inside the array bounds (never an out-of-range
index, no wrap-around), and the extracted block enumerates the array
exactly over those indices. -/
theorem claim_C6 (arr : ℕ → ℕ → ℚ) (H W : ℕ) (pos : ℤ × ℤ) (win : ℕ × ℕ) :
    (∀ i, i ∈ windowRowIdx H pos win ↔
      (i < H ∧ inWindow (pos.1 - ((win.1 / 2 : ℕ) : ℤ)) win.1 i)) ∧
    (∀ j, j ∈ windowColIdx W pos win ↔
      (j < W ∧ inWindow (pos.2 - ((win.2 / 2 : ℕ) : ℤ)) win.2 j)) ∧
    extractRegion arr H W pos win =
      (windowRowIdx H pos win).map fun i =>
        (windowColIdx W pos win).map fun j => arr i j := by
  refine ⟨?_, ?_, rfl⟩ <;>
    · intro k
      simp [windowRowIdx, windowColIdx, clampedRange, List.mem_filter,
        List.mem_range, inWindow]

theorem claim_C10_witness :
    PosArg.extract (.roi (1, 2)) = some (1, 2) ∧
    (initROILogic = ROILogicState.mk (80, 60) (320, 300) ∧
      (set_zoom_roi_pos initROILogic (.roi (1, 2))).map
          (fun r => (r.1.zoomPos, r.1.plotPos)) =
        some ((((1 : ℚ), (2 : ℚ)).1, ((1 : ℚ), (2 : ℚ)).2), initROILogic.plotPos) ∧
      (set_plot_roi_pos initROILogic (.roi (1, 2))).map
          (fun r => (r.1.plotPos, r.1.zoomPos)) =
        some ((((1 : ℚ), (2 : ℚ)).1, ((1 : ℚ), (2 : ℚ)).2), initROILogic.zoomPos) ∧
      (set_zoom_roi_pos initROILogic (.roi (1, 2))).map (fun r => r.2) =
        some (if ((1 : ℚ), (2 : ℚ)).1 = initROILogic.zoomPos.1 ∧
                ((1 : ℚ), (2 : ℚ)).2 = initROILogic.zoomPos.2 then []
              else [(((1 : ℚ), (2 : ℚ)).1, ((1 : ℚ), (2 : ℚ)).2)]) ∧
      (set_plot_roi_pos initROILogic (.roi (1, 2))).map (fun r => r.2) =
        some (if ((1 : ℚ), (2 : ℚ)).1 = initROILogic.plotPos.1 ∧
                ((1 : ℚ), (2 : ℚ)).2 = initROILogic.plotPos.2 then []
              else [(((1 : ℚ), (2 : ℚ)).1, ((1 : ℚ), (2 : ℚ)).2)])) :=
  ⟨rfl, claim_C10 initROILogic (.roi (1, 2)) (1, 2) rfl⟩

/-- C9: the plot registration list is one class-level list shared by every
`PlotsDock` instance in the process: two registrations through two
different instances both land in that single list (so each instance sees
the other's entry), and one `update_plot_content` call through either
instance repositions and re-plots every entry ever registered. -/
theorem claim_C9 (proc : PlotsProcess) (instA instB : ℕ)
    (H1 W1 : ℕ) (a1 : ℕ → ℕ → ℚ) (win1 : ℕ × ℕ) (pos1 : ℤ × ℤ)
    (H2 W2 : ℕ) (a2 : ℕ → ℕ → ℚ) (win2 : ℕ × ℕ) (pos2 : ℤ × ℤ)
    (pos : ℤ × ℤ) :
    (add_image_to_plot (add_image_to_plot proc instA H1 W1 a1 win1 pos1)
        instB H2 W2 a2 win2 pos2).imagesToPlot.length =
      proc.imagesToPlot.length + 2 ∧
    images_seen (add_image_to_plot (add_image_to_plot proc instA H1 W1 a1 win1 pos1)
        instB H2 W2 a2 win2 pos2) instA =
      images_seen (add_image_to_plot (add_image_to_plot proc instA H1 W1 a1 win1 pos1)
        instB H2 W2 a2 win2 pos2) instB ∧
    (add_image_to_plot (add_image_to_plot proc instA H1 W1 a1 win1 pos1)
        instB H2 W2 a2 win2 pos2).imagesToPlot.map (fun e => e.arr) =
      proc.imagesToPlot.map (fun e => e.arr) ++ [a1, a2] ∧
    update_plot_content_on (add_image_to_plot (add_image_to_plot proc instA H1 W1 a1 win1 pos1)
        instB H2 W2 a2 win2 pos2) instA pos =
      update_plot_content_on (add_image_to_plot (add_image_to_plot proc instA H1 W1 a1 win1 pos1)
        instB H2 W2 a2 win2 pos2) instB pos ∧
    (update_plot_content_on (add_image_to_plot (add_image_to_plot proc instA H1 W1 a1 win1 pos1)
        instB H2 W2 a2 win2 pos2) instA pos).imagesToPlot =
      (add_image_to_plot (add_image_to_plot proc instA H1 W1 a1 win1 pos1)
        instB H2 W2 a2 win2 pos2).imagesToPlot.map (updateEntry pos) := by
  refine ⟨?_, rfl, ?_, rfl, rfl⟩
  · simp [add_image_to_plot, update_plot_content]
  · simp [add_image_to_plot, update_plot_content, updateEntry, List.map_map,
      Function.comp]

/-- C8: a `set` call that changes the zoom position delivers its
notifications synchronously before returning, to every dock subscribed to
the zoom channel in registration order with the new position as payload,
updating all their extracted regions, while the state of the plot channel's
consumers is untouched and no event carries the unrelated name. -/
theorem claim_C8 (w : SyncWorld) (arg : PosArg) (p : ℚ × ℚ)
    (h : arg.extract = some p) (hne : (p.1, p.2) ≠ w.roi.zoomPos) :
    set_zoom_roi_pos_world w arg =
      some
        ({ w with
            roi := { w.roi with zoomPos := (p.1, p.2) },
            zoomSubs := w.zoomSubs.map
              (update_zoom_roi_content (posToIndex (p.1, p.2))) },
          w.zoomSubs.map fun d => (SigName.zoom, d.id, (p.1, p.2))) ∧
    ({ w with
        roi := { w.roi with zoomPos := (p.1, p.2) },
        zoomSubs := w.zoomSubs.map
          (update_zoom_roi_content (posToIndex (p.1, p.2))) } : SyncWorld).plotEntries =
      w.plotEntries ∧
    (w.zoomSubs.map fun d => (SigName.zoom, d.id, (p.1, p.2))).filter
      (fun e => decide (e.1 = SigName.plot)) = [] := by
  refine ⟨?_, rfl, ?_⟩
  · simp [set_zoom_roi_pos_world, set_zoom_roi_pos, h, hne, emitZoom]
  · simp [List.filter_map, Function.comp]

theorem claim_C8_witness :
    PosArg.extract (.roi (10, 20)) = some (10, 20) ∧
    (((10 : ℚ), (20 : ℚ))) ≠ demoWorld.roi.zoomPos ∧
    (set_zoom_roi_pos_world demoWorld (.roi (10, 20)) =
        some
          ({ demoWorld with
              roi := { demoWorld.roi with zoomPos := (10, 20) },
              zoomSubs := demoWorld.zoomSubs.map
                (update_zoom_roi_content (posToIndex (10, 20))) },
            demoWorld.zoomSubs.map fun d => (SigName.zoom, d.id, ((10 : ℚ), (20 : ℚ)))) ∧
      ({ demoWorld with
          roi := { demoWorld.roi with zoomPos := (10, 20) },
          zoomSubs := demoWorld.zoomSubs.map
            (update_zoom_roi_content (posToIndex (10, 20))) } : SyncWorld).plotEntries =
        demoWorld.plotEntries ∧
      (demoWorld.zoomSubs.map fun d => (SigName.zoom, d.id, ((10 : ℚ), (20 : ℚ)))).filter
        (fun e => decide (e.1 = SigName.plot)) = []) :=
  ⟨rfl, by decide, claim_C8 demoWorld (.roi (10, 20)) (10, 20) rfl (by decide)⟩

/-- C4, as amended: for every RF image loaded as a volume with a trailing
singleton third axis (numpy buffer shape `(1, sy, sx)`, `sx, sy ≥ 2` — the
layout the `squeeze()` call addresses), the derived B-mode image's exposed
array is the 1-D analytic-signal-magnitude transform of the RF image's
exposed array applied independently along each row (transform axis 1 of
the squeezed, transposed orientation used for display and extraction), for
any 1-D envelope operator standing for the external scipy kernel.  For a
genuinely 2-D loaded image the transform axis maps to the displayed
array's first dimension instead (see the counterexample). -/
theorem claim_C4 (T : (ℕ → ℚ) → ℕ → ℚ) (rf : SitkImage3)
    (hz : rf.sz = 1) (hx : 2 ≤ rf.sx) (hy : 2 ≤ rf.sy) (i j : ℕ) :
    derive_b_mode T rf =
      some (SitkImage3.mk rf.sx rf.sy rf.sz rf.spacing
        (envelope_axis1 T rf.data)) ∧
    image_array (SitkImage3.mk rf.sx rf.sy rf.sz rf.spacing
        (envelope_axis1 T rf.data)) i j =
      T (fun k => image_array rf i k) j := by
  refine ⟨?_, rfl⟩
  simp [derive_b_mode, CopyInformation, GetImageFromArray, GetArrayFromImage]

theorem claim_C4_witness :
    demoRF.sz = 1 ∧ 2 ≤ demoRF.sx ∧ 2 ≤ demoRF.sy ∧
    (derive_b_mode demoEnvOp demoRF =
        some (SitkImage3.mk demoRF.sx demoRF.sy demoRF.sz demoRF.spacing
          (envelope_axis1 demoEnvOp demoRF.data)) ∧
      image_array (SitkImage3.mk demoRF.sx demoRF.sy demoRF.sz demoRF.spacing
          (envelope_axis1 demoEnvOp demoRF.data)) 0 1 =
        demoEnvOp (fun k => image_array demoRF 0 k) 1) :=
  ⟨rfl, by decide, by decide,
    claim_C4 demoEnvOp demoRF rfl (by decide) (by decide) 0 1⟩

/-- C4 counterexample: for a genuinely 2-D loaded image the original claim
fails — the derivation succeeds, but at the concrete image `cxRF`, envelope
operator `demoEnvOp`, and index `(1, 1)`, the displayed envelope value is
not the envelope operator applied along axis 1 (the rows) of the displayed
RF array: `hilbert(array, axis=1)` acts on the raw `(sy, sx)` buffer, and
after `squeeze().transpose()` that axis is the displayed array's first
dimension, not its second. -/
theorem claim_C4_counterexample :
    derive_b_mode2 demoEnvOp cxRF =
      some (SitkImage2.mk 2 2 (1, 1) (envelope2_axis1 demoEnvOp cxRF.data)) ∧
    image_array2 (SitkImage2.mk 2 2 (1, 1)
        (envelope2_axis1 demoEnvOp cxRF.data)) 1 1 ≠
      demoEnvOp (fun k => image_array2 cxRF 1 k) 1 := by
  refine ⟨rfl, ?_⟩
  simp [image_array2, envelope2_axis1, cxRF, demoEnvOp]

/-- C5: for every source image, the derived B-mode image exists (the size
check of `CopyInformation` passes) and carries per-axis size and spacing
identical to the source. -/
theorem claim_C5 (T : (ℕ → ℚ) → ℕ → ℚ) (rf : SitkImage3) :
    (derive_b_mode T rf).map (fun b => ((b.sx, b.sy, b.sz), b.spacing)) =
      some ((rf.sx, rf.sy, rf.sz), rf.spacing) := by
  simp [derive_b_mode, CopyInformation, GetImageFromArray, GetArrayFromImage]

/-- C7: for a loaded image whose trailing (z) axis is a singleton, the
array exposed by the image store is the numpy buffer with the singleton
axis dropped and the two remaining axes swapped, so its second index runs
along the y (depth) axis of the buffer: element `(i, j)` is buffer element
`(0, j, i)`, matching the spec-side description. -/
theorem claim_C7 (img : SitkImage3) (hz : img.sz = 1) (hx : 2 ≤ img.sx)
    (hy : 2 ≤ img.sy) (i j : ℕ) :
    image_array img i j = GetArrayFromImage img 0 j i ∧
    image_array img i j = specExposedArray img i j :=
  ⟨rfl, rfl⟩

theorem claim_C7_witness :
    demoRF.sz = 1 ∧ 2 ≤ demoRF.sx ∧ 2 ≤ demoRF.sy ∧
    (image_array demoRF 1 0 = GetArrayFromImage demoRF 0 0 1 ∧
      image_array demoRF 1 0 = specExposedArray demoRF 1 0) :=
  ⟨rfl, by decide, by decide, claim_C7 demoRF rfl (by decide) (by decide) 1 0⟩

end RFViewer
